import Mathlib

/-!
# Verification of the gSearch employee-retrieval engine

Shallow embedding of the employee-search RAG application: the record store
(`app/services/data_service.py`), the document expansion and retriever
configuration (`app/services/retriever_service.py`), the QA-chain wiring
(`app/services/llm_service.py`), and the two HTTP layers
(`app/api/main.py` and `app/main.py`).  Python dictionaries for employee
records become a fixed-field structure, LangChain `Document` values become a
structure pairing the rendered text with a metadata variant, and the
imperative accumulation loops become folds over lists.
-/

/-- An employee record as it appears in `data/employees.json` and is consumed
by `format_employee`, `create_skill_document`, `create_project_document` and
the search endpoints (fields `id`, `name`, `skills`, `experience_years`,
`projects`, `availability`). -/
structure Employee where
  id : Int
  name : String
  skills : List String
  experience_years : Int
  projects : List String
  availability : String
deriving DecidableEq, Repr

/-- The metadata dictionary attached to each LangChain `Document` built in
`get_retriever` (`app/services/retriever_service.py`): the `"type"` key is the
constructor, the remaining keys are the fields.  The profile metadata carries
`id, name, availability, skills, experience, projects`; the skill metadata
carries `id, name, skill, experience`; the project metadata carries
`id, name, project`. -/
inductive Metadata where
  | employee_profile (id : Int) (name : String) (availability : String)
      (skills : List String) (experience : Int) (projects : List String)
  | skill_specific (id : Int) (name : String) (skill : String) (experience : Int)
  | project_specific (id : Int) (name : String) (project : String)
deriving DecidableEq, Repr

/-- A LangChain `Document`: rendered text plus metadata. -/
structure Document where
  page_content : String
  metadata : Metadata
deriving DecidableEq, Repr

/-- The string stored under the `"type"` metadata key. -/
def Metadata.unitType : Metadata → String
  | .employee_profile .. => "employee_profile"
  | .skill_specific .. => "skill_specific"
  | .project_specific .. => "project_specific"

/-- The `"id"` metadata entry (the source record id). -/
def Metadata.sourceId : Metadata → Int
  | .employee_profile i .. => i
  | .skill_specific i .. => i
  | .project_specific i .. => i

/-- Concatenation of the pieces of a Python f-string, in order. -/
def strConcat : List String → String
  | [] => ""
  | p :: ps => p ++ strConcat ps

/-- `format_employee` from `app/services/retriever_service.py`: the profile
text rendered from one record (an f-string — the concatenation of its literal
and interpolated pieces, the indentation of the Python source kept
verbatim). -/
def format_employee (emp : Employee) : String :=
  strConcat
    ["Employee Profile:\n        ID: ", toString emp.id,
     "\n        Name: ", emp.name,
     "\n        Skills: ", String.intercalate ", " emp.skills,
     "\n        Experience: ", toString emp.experience_years, " years",
     "\n        Projects: ", String.intercalate ", " emp.projects,
     "\n        Availability: ", emp.availability,
     "\n\n        Key Details:\n        - Primary Skills: ",
     String.intercalate ", " (emp.skills.take 3),
     "\n        - Years of Experience: ", toString emp.experience_years,
     "\n        - Current Availability: ", emp.availability,
     "\n        - Project Experience: ", String.intercalate ", " emp.projects,
     "\n    "]

/-- `create_skill_document` from `app/services/retriever_service.py`. -/
def create_skill_document (emp : Employee) (skill : String) : Document where
  page_content :=
    strConcat
      ["Employee ", emp.name, " has expertise in ", skill, " with ",
       toString emp.experience_years,
       " years of experience.\nProjects involving ", skill, ": ",
       String.intercalate ", " emp.projects,
       "\nAvailability: ", emp.availability]
  metadata := .skill_specific emp.id emp.name skill emp.experience_years

/-- `create_project_document` from `app/services/retriever_service.py`. -/
def create_project_document (emp : Employee) (project : String) : Document where
  page_content :=
    strConcat
      ["Employee ", emp.name, " worked on ", project,
       " project.\nSkills used: ", String.intercalate ", " emp.skills,
       "\nExperience: ", toString emp.experience_years,
       " years\nAvailability: ", emp.availability]
  metadata := .project_specific emp.id emp.name project

/-- The `main_doc` built for one employee inside `get_retriever`. -/
def main_document (emp : Employee) : Document where
  page_content := format_employee emp
  metadata := .employee_profile emp.id emp.name emp.availability
    emp.skills emp.experience_years emp.projects

/-- The document-accumulation loop body of `get_retriever`
(`app/services/retriever_service.py` lines 104-128) restricted to one
employee: append the main document, then one skill document per entry of
`emp["skills"]`, then one project document per entry of `emp["projects"]`,
each `docs.append` rendered as an `acc ++ [d]` step of a fold. -/
def expand_employee (emp : Employee) : List Document :=
  let docs : List Document := []
  let docs := docs ++ [main_document emp]
  let docs := emp.skills.foldl (fun acc skill => acc ++ [create_skill_document emp skill]) docs
  let docs := emp.projects.foldl (fun acc project => acc ++ [create_project_document emp project]) docs
  docs

/-- The full `docs` list `get_retriever` indexes: the same loop over the whole
corpus. -/
def build_docs (employees : List Employee) : List Document :=
  employees.foldl (fun acc emp => acc ++ expand_employee emp) []

theorem foldl_append_singleton {α β : Type} (f : α → β) :
    ∀ (l : List α) (init : List β),
      l.foldl (fun acc x => acc ++ [f x]) init = init ++ l.map f := by
  intro l
  induction l with
  | nil => intro init; simp
  | cons x xs ih => intro init; simp [List.foldl_cons, ih]

/-- The expansion loop in closed form: profile first, then the skill
documents in order, then the project documents in order. -/
theorem expand_employee_eq (emp : Employee) :
    expand_employee emp =
      main_document emp ::
        (emp.skills.map (create_skill_document emp) ++
         emp.projects.map (create_project_document emp)) := by
  simp [expand_employee, foldl_append_singleton]

/-- C1: for every employee record, expansion yields exactly
`1 + |skills| + |projects|` documents; the sequence is the profile document
first, then one skill document per skill in original order, then one project
document per project in original order; empty skill or project lists
contribute nothing beyond the profile document. -/
theorem C1_expand_count_and_order (emp : Employee) :
    (expand_employee emp).length = 1 + emp.skills.length + emp.projects.length ∧
    (expand_employee emp).head? = some (main_document emp) ∧
    expand_employee emp =
      main_document emp ::
        (emp.skills.map (create_skill_document emp) ++
         emp.projects.map (create_project_document emp)) ∧
    (emp.skills = [] → emp.projects = [] →
      expand_employee emp = [main_document emp]) := by
  refine ⟨?_, ?_, expand_employee_eq emp, ?_⟩
  · simp [expand_employee_eq]; omega
  · simp [expand_employee_eq]
  · intro hs hp
    simp [expand_employee_eq, hs, hp]

/-- A record with empty skill and project lists, for the edge case of C1. -/
def bareEmployee : Employee where
  id := 9
  name := "Ed"
  skills := []
  experience_years := 1
  projects := []
  availability := "busy"

/-- Witness for C1 at a record with empty skill and project lists: the
expansion is exactly the profile document. -/
theorem C1_expand_count_and_order_witness :
    (expand_employee bareEmployee).length =
      1 + bareEmployee.skills.length + bareEmployee.projects.length ∧
    (expand_employee bareEmployee).head? = some (main_document bareEmployee) ∧
    expand_employee bareEmployee = [main_document bareEmployee] :=
  ⟨(C1_expand_count_and_order bareEmployee).1,
   (C1_expand_count_and_order bareEmployee).2.1,
   (C1_expand_count_and_order bareEmployee).2.2.2 rfl rfl⟩

/-! ## Retrieval policy

`get_retriever` hands the documents to an external FAISS vector store and
configures `as_retriever(search_type="similarity_score_threshold",
search_kwargs={"k": settings.MAX_RESULTS, "score_threshold":
settings.SIMILARITY_THRESHOLD})`.  The search itself is library code outside
this repository, so the policy applied to the ranked candidates is modelled
from the spec. -/

/-- `settings.SIMILARITY_THRESHOLD` from `app/core/config.py` (0.3), as a
rational: similarity scores are modelled over ℚ. -/
def SIMILARITY_THRESHOLD : ℚ := 3 / 10

/-- `settings.MAX_RESULTS` from `app/core/config.py`. -/
def MAX_RESULTS : ℕ := 5

/-- Modelled from the spec: the `similarity_score_threshold` retrieval the
external vector-store library performs on the candidates ranked by descending
similarity (spec §4.4) — keep the candidates whose score is `>= score_floor`
(the comparison is `>=`, not `>`) and truncate to at most `k`.  The repository
itself only supplies the configuration (`get_retriever`,
`app/services/retriever_service.py` lines 140-149); it adds no step of its
own, in particular no deduplication. -/
def retrieve (score_floor : ℚ) (k : ℕ) (candidates : List (Document × ℚ)) :
    List (Document × ℚ) :=
  (candidates.filter fun c => score_floor ≤ c.2).take k

theorem retrieve_length_le (score_floor : ℚ) (k : ℕ) (candidates : List (Document × ℚ)) :
    (retrieve score_floor k candidates).length ≤ k := by
  simp [retrieve, List.length_take_le]

theorem retrieve_sublist (score_floor : ℚ) (k : ℕ) (candidates : List (Document × ℚ)) :
    (retrieve score_floor k candidates).Sublist candidates :=
  (List.take_sublist _ _).trans (List.filter_sublist _)

theorem retrieve_score_ge (score_floor : ℚ) (k : ℕ) (candidates : List (Document × ℚ)) :
    ∀ c ∈ retrieve score_floor k candidates, score_floor ≤ c.2 := by
  intro c hc
  have hmem : c ∈ candidates.filter fun c => score_floor ≤ c.2 :=
    (List.take_sublist _ _).mem hc
  simpa using (List.mem_filter.mp hmem).2

theorem retrieve_eq_nil (score_floor : ℚ) (k : ℕ) (candidates : List (Document × ℚ))
    (h : ∀ c ∈ candidates, c.2 < score_floor) :
    retrieve score_floor k candidates = [] := by
  have : (candidates.filter fun c => score_floor ≤ c.2) = [] := by
    refine List.filter_eq_nil_iff.mpr ?_
    intro c hc
    simpa using not_le.mpr (h c hc)
  simp [retrieve, this]

/-- C2: for every score floor, every `k` and every ranked candidate list, the
retrieval policy returns at most `k` units, every returned unit's score is
`>= score_floor`, and when no candidate reaches the floor the result is the
empty evidence set (not an error and not a forced weak match). -/
theorem C2_retrieve_k_and_floor (score_floor : ℚ) (k : ℕ)
    (candidates : List (Document × ℚ)) :
    (retrieve score_floor k candidates).length ≤ k ∧
    (∀ c ∈ retrieve score_floor k candidates, score_floor ≤ c.2) ∧
    ((∀ c ∈ candidates, c.2 < score_floor) → retrieve score_floor k candidates = []) :=
  ⟨retrieve_length_le _ _ _, retrieve_score_ge _ _ _, retrieve_eq_nil _ _ _⟩

/-- The one-record corpus of the spec's test scenario (§8). -/
def ana : Employee where
  id := 1
  name := "Ana"
  skills := ["Go", "SQL"]
  experience_years := 4
  projects := ["Billing"]
  availability := "available"

/-- Witness for C2 at the configured settings (`k = 5`, floor `0.3`): one
candidate above the floor, and a list entirely below the floor yields `[]`. -/
theorem C2_retrieve_k_and_floor_witness :
    (retrieve SIMILARITY_THRESHOLD MAX_RESULTS [(main_document ana, 9 / 10)]).length ≤ MAX_RESULTS ∧
    (∀ c ∈ retrieve SIMILARITY_THRESHOLD MAX_RESULTS [(main_document ana, 9 / 10)],
      SIMILARITY_THRESHOLD ≤ c.2) ∧
    retrieve SIMILARITY_THRESHOLD MAX_RESULTS [(main_document ana, 1 / 10)] = [] :=
  ⟨(C2_retrieve_k_and_floor SIMILARITY_THRESHOLD MAX_RESULTS _).1,
   (C2_retrieve_k_and_floor SIMILARITY_THRESHOLD MAX_RESULTS _).2.1,
   (C2_retrieve_k_and_floor SIMILARITY_THRESHOLD MAX_RESULTS
      [(main_document ana, 1 / 10)]).2.2
      (by intro c hc; simp at hc; rw [hc]; norm_num [SIMILARITY_THRESHOLD])⟩

/-! ## Deduplication (or its absence) -/

/-- The deduplication key the spec prescribes for evidence sets:
source record id, unit type and type-specific metadata (the skill or project
name; `none` for the profile unit). -/
def Metadata.dedupKey (m : Metadata) : Int × String × Option String :=
  (m.sourceId, m.unitType,
    match m with
    | .employee_profile .. => none
    | .skill_specific _ _ s _ => some s
    | .project_specific _ _ p => some p)

/-- A record whose `skills` list repeats an entry: the expansion loop of
`get_retriever` indexes one skill document per list entry, so this record
contributes two identical `Go` documents. -/
def dupEmployee : Employee where
  id := 2
  name := "Bo"
  skills := ["Go", "Go"]
  experience_years := 3
  projects := []
  availability := "available"

/-- C5 as stated is false: the repository deduplicates nowhere.  The record
with a repeated `Go` skill is expanded into two identical skill documents
(both are indexed), and when the vector store returns both — identical text
gives identical embeddings and scores — the configured retrieval passes both
through, so one evidence set holds two units with the same
`source_record_id + unit_type + metadata` key. -/
theorem C5_counterexample_duplicate_units :
    (expand_employee dupEmployee).count (create_skill_document dupEmployee "Go") = 2 ∧
    retrieve SIMILARITY_THRESHOLD MAX_RESULTS
        [(create_skill_document dupEmployee "Go", 9 / 10),
         (create_skill_document dupEmployee "Go", 9 / 10)] =
      [(create_skill_document dupEmployee "Go", 9 / 10),
       (create_skill_document dupEmployee "Go", 9 / 10)] ∧
    ¬ ((retrieve SIMILARITY_THRESHOLD MAX_RESULTS
        [(create_skill_document dupEmployee "Go", 9 / 10),
         (create_skill_document dupEmployee "Go", 9 / 10)]).map
        fun c => c.1.metadata.dedupKey).Nodup := by
  have hret : retrieve SIMILARITY_THRESHOLD MAX_RESULTS
      [(create_skill_document dupEmployee "Go", 9 / 10),
       (create_skill_document dupEmployee "Go", 9 / 10)] =
      [(create_skill_document dupEmployee "Go", 9 / 10),
       (create_skill_document dupEmployee "Go", 9 / 10)] := by
    norm_num [retrieve, SIMILARITY_THRESHOLD, MAX_RESULTS, List.filter, List.take]
  refine ⟨by decide, hret, ?_⟩
  rw [hret]
  decide

/-- C5 amended: the retrieval applies no deduplication of its own — its
output is a sublist of the ranked candidates (order and multiplicity
preserved), so the returned dedup keys are distinct exactly when the
candidates' already were; duplicate index entries (from repeated skill or
project list entries) can therefore reappear in one evidence set. -/
theorem C5_amended_no_dedup (score_floor : ℚ) (k : ℕ)
    (candidates : List (Document × ℚ)) :
    (retrieve score_floor k candidates).Sublist candidates ∧
    ((candidates.map fun c => c.1.metadata.dedupKey).Nodup →
      ((retrieve score_floor k candidates).map fun c => c.1.metadata.dedupKey).Nodup) := by
  have hsub : (retrieve score_floor k candidates).Sublist candidates :=
    (List.take_sublist _ _).trans (List.filter_sublist _)
  exact ⟨hsub, fun h => h.sublist (hsub.map _)⟩

/-- Witness for the amended C5 at the configured settings, on a
duplicate-free candidate list. -/
theorem C5_amended_no_dedup_witness :
    (retrieve SIMILARITY_THRESHOLD MAX_RESULTS
      [(main_document dupEmployee, 9 / 10)]).Sublist [(main_document dupEmployee, 9 / 10)] ∧
    ((retrieve SIMILARITY_THRESHOLD MAX_RESULTS
      [(main_document dupEmployee, 9 / 10)]).map fun c => c.1.metadata.dedupKey).Nodup :=
  ⟨(C5_amended_no_dedup SIMILARITY_THRESHOLD MAX_RESULTS _).1,
   (C5_amended_no_dedup SIMILARITY_THRESHOLD MAX_RESULTS
      [(main_document dupEmployee, 9 / 10)]).2 (by decide)⟩

/-! ## Evidence context assembly

The QA chain (`get_qa_chain`, `app/services/llm_service.py` lines 100-109)
feeds the retrieved documents to the external LangChain
`create_stuff_documents_chain`, whose code is not part of this repository;
the configured budget is `settings.LLM_CONTEXT_SIZE`
(`app/core/config.py` line 27). -/

/-- `settings.LLM_CONTEXT_SIZE` from `app/core/config.py`. -/
def LLM_CONTEXT_SIZE : ℕ := 4096

/-- The assembly loop over the units after the first: append the next unit
text while it still fits in the budget, stop at the first one that does not.
Texts are modelled as character lists. -/
def assembleGo (budget : ℕ) (acc : List Char) : List (List Char) → List Char
  | [] => acc
  | t :: rest =>
      if acc.length + t.length ≤ budget then assembleGo budget (acc ++ t) rest else acc

/-- Modelled from the spec: the Evidence Context Assembler (§4.5), whose
implementation the repository delegates to the external library.  `assemble`
concatenates unit texts in ranked order, stopping before exceeding `budget`;
if the very first unit alone exceeds `budget` it is still included, truncated
to `budget`, rather than omitted. -/
def assemble (budget : ℕ) : List (List Char) → List Char
  | [] => []
  | first :: rest =>
      assembleGo budget (if first.length ≤ budget then first else first.take budget) rest

theorem assembleGo_length_le (budget : ℕ) :
    ∀ (l : List (List Char)) (acc : List Char), acc.length ≤ budget →
      (assembleGo budget acc l).length ≤ budget := by
  intro l
  induction l with
  | nil => intro acc h; simpa [assembleGo] using h
  | cons t rest ih =>
    intro acc h
    by_cases hfit : acc.length + t.length ≤ budget
    · simpa [assembleGo, hfit] using ih (acc ++ t) (by simpa using hfit)
    · simpa [assembleGo, hfit] using h

theorem assembleGo_decomp (budget : ℕ) :
    ∀ (l : List (List Char)) (acc : List Char),
      ∃ taken untaken, taken ++ untaken = l ∧
        assembleGo budget acc l = acc ++ taken.flatten := by
  intro l
  induction l with
  | nil => intro acc; exact ⟨[], [], rfl, by simp [assembleGo]⟩
  | cons t rest ih =>
    intro acc
    by_cases hfit : acc.length + t.length ≤ budget
    · obtain ⟨taken, untaken, heq, hrun⟩ := ih (acc ++ t)
      exact ⟨t :: taken, untaken, by simp [heq],
        by simp [assembleGo, hfit, hrun, List.append_assoc]⟩
    · exact ⟨[], t :: rest, rfl, by simp [assembleGo, hfit]⟩

/-- C3: for every budget and non-empty evidence list, the assembled context
never exceeds the budget; it is the (possibly truncated) first unit followed
by the concatenation, in ranked order without reordering or merging, of an
initial segment of the remaining units; and a first unit exceeding the budget
is included truncated to the budget rather than omitted. -/
theorem C3_assemble_within_budget (budget : ℕ) (first : List Char)
    (rest : List (List Char)) :
    (assemble budget (first :: rest)).length ≤ budget ∧
    (∃ taken untaken, taken ++ untaken = rest ∧
      assemble budget (first :: rest) =
        (if first.length ≤ budget then first else first.take budget) ++ taken.flatten) ∧
    (budget < first.length →
      ∃ t, assemble budget (first :: rest) = first.take budget ++ t) := by
  have hhead : (if first.length ≤ budget then first else first.take budget).length ≤ budget := by
    by_cases h : first.length ≤ budget
    · simp [h]
    · simp [h, List.length_take]
  refine ⟨?_, ?_, ?_⟩
  · simpa [assemble] using assembleGo_length_le budget rest _ hhead
  · simpa [assemble] using assembleGo_decomp budget rest _
  · intro h
    obtain ⟨taken, untaken, -, hrun⟩ := assembleGo_decomp budget rest
      (if first.length ≤ budget then first else first.take budget)
    refine ⟨taken.flatten, ?_⟩
    simpa [assemble, not_le.mpr h] using hrun

/-- Witness for C3: budget 5, a first unit of 8 characters and one further
unit; the context is the first unit truncated to 5 characters. -/
theorem C3_assemble_within_budget_witness :
    (assemble 5 ["abcdefgh".data, "xy".data]).length ≤ 5 ∧
    (∃ t, assemble 5 ["abcdefgh".data, "xy".data] = "abcdefgh".data.take 5 ++ t) :=
  ⟨(C3_assemble_within_budget 5 "abcdefgh".data ["xy".data]).1,
   (C3_assemble_within_budget 5 "abcdefgh".data ["xy".data]).2.2 (by decide)⟩

/-! ## Record store

`load_employee_docs` (`app/services/data_service.py` lines 16-56) reads the
JSON file, takes `json.load(f)["employees"]`, and rejects a falsy result; it
performs no per-record validation, returning the raw dictionaries as loaded.
(`app/data_loader.py` applies the same checks before wrapping each record in
a `Document`.) -/

/-- A raw record as the JSON parser delivers it: every field may be absent,
because the loader never looks inside a record. -/
structure RawRecord where
  id : Option Int
  name : Option String
  skills : Option (List String)
  experience_years : Option Int
  projects : Option (List String)
  availability : Option String
deriving DecidableEq, Repr

/-- The backing source as `load_employee_docs` observes it: the file can be
missing (`os.path.exists` fails), unparseable (`json.JSONDecodeError`),
parseable without a top-level `"employees"` key (`KeyError`), or carry the
record list. -/
inductive DataSource where
  | missingFile
  | malformedJson
  | noEmployeesKey
  | employeesList (records : List RawRecord)
deriving DecidableEq, Repr

/-- The exceptions `load_employee_docs` can raise. -/
inductive LoadError where
  | fileNotFoundError
  | jsonDecodeError
  | keyError
  | valueError
deriving DecidableEq, Repr

/-- `load_employee_docs` from `app/services/data_service.py`: raise on a
missing file, on malformed JSON, on a missing `"employees"` key, and on a
falsy (empty) record list (`if not data`); otherwise return the records
exactly as parsed, with no per-record check. -/
def load_employee_docs : DataSource → Except LoadError (List RawRecord)
  | .missingFile => .error .fileNotFoundError
  | .malformedJson => .error .jsonDecodeError
  | .noEmployeesKey => .error .keyError
  | .employeesList records =>
      if records = [] then .error .valueError else .ok records

/-- A record missing the required `name` field. -/
def incompleteRecord : RawRecord where
  id := some 7
  name := none
  skills := some ["Go"]
  experience_years := some 3
  projects := some []
  availability := some "available"

/-- C4 as stated is false on one point: the loader never validates individual
records, so a corpus whose single record lacks the required `name` field
loads successfully instead of failing. -/
theorem C4_counterexample_no_record_validation :
    load_employee_docs (.employeesList [incompleteRecord]) = .ok [incompleteRecord] ∧
    incompleteRecord.name = none := by
  exact ⟨by simp [load_employee_docs], rfl⟩

/-- C4 amended: the load fails exactly when the backing source is missing,
malformed, lacks the `"employees"` collection, or holds an empty record
list — a record missing a required field is not checked and does not fail the
load — and loading is all-or-nothing: a non-empty list is returned complete
and unmodified. -/
theorem C4_amended_load_fail_conditions (src : DataSource) :
    ((∃ e, load_employee_docs src = .error e) ↔
      (src = .missingFile ∨ src = .malformedJson ∨ src = .noEmployeesKey ∨
        src = .employeesList [])) ∧
    (∀ records, records ≠ [] →
      load_employee_docs (.employeesList records) = .ok records) := by
  constructor
  · cases src with
    | missingFile => simp [load_employee_docs]
    | malformedJson => simp [load_employee_docs]
    | noEmployeesKey => simp [load_employee_docs]
    | employeesList records =>
      by_cases h : records = [] <;> simp [load_employee_docs, h]
  · intro records h
    simp [load_employee_docs, h]

/-- Witness for the amended C4: the empty corpus fails, the one-record corpus
with an incomplete record loads whole. -/
theorem C4_amended_load_fail_conditions_witness :
    (∃ e, load_employee_docs (.employeesList []) = .error e) ∧
    load_employee_docs (.employeesList [incompleteRecord]) = .ok [incompleteRecord] :=
  ⟨(C4_amended_load_fail_conditions (.employeesList [])).1.mpr
      (Or.inr (Or.inr (Or.inr rfl))),
   (C4_amended_load_fail_conditions (.employeesList [incompleteRecord])).2
      [incompleteRecord] (by simp)⟩

/-! ## Python string primitives

The filters of the two `search_employees` endpoints use `str.split(",")`,
`str.strip()`, `str.lower()` and the substring test `a in b`.  They are
embedded on the character list underlying the string, following CPython
semantics. -/

/-- Python `str.split(",")` over characters: cut at every comma, keeping
empty pieces (so the result always has one more piece than there are
commas). -/
def splitCommaChars : List Char → List Char → List (List Char)
  | [], acc => [acc.reverse]
  | c :: cs, acc =>
      if c = ',' then acc.reverse :: splitCommaChars cs []
      else splitCommaChars cs (c :: acc)

/-- Python `s.split(",")`. -/
def pySplitComma (s : String) : List String :=
  (splitCommaChars s.data []).map fun cs => ⟨cs⟩

/-- Python `s.strip()`: whitespace removed from both ends. -/
def pyStrip (s : String) : String :=
  ⟨((s.data.dropWhile Char.isWhitespace).reverse.dropWhile Char.isWhitespace).reverse⟩

/-- Python `s.lower()`: each character lowercased. -/
def pyLower (s : String) : String :=
  ⟨s.data.map Char.toLower⟩

/-- Does `needle` occur at the start of `hay`? -/
def beginsWith : List Char → List Char → Bool
  | [], _ => true
  | _ :: _, [] => false
  | a :: as, b :: bs => a = b && beginsWith as bs

/-- Python `needle in hay` for strings: substring occurrence. -/
def containsSub (needle : List Char) : List Char → Bool
  | [] => needle.isEmpty
  | c :: cs => beginsWith needle (c :: cs) || containsSub needle cs

/-- Python `needle in hay` on `String`. -/
def pyContains (needle hay : String) : Bool :=
  containsSub needle.data hay.data

/-! ## The two skill-filter revisions and the search endpoints -/

/-- The skills filter of `search_employees` in `app/api/main.py` (lines
104-110): split the comma-separated parameter, strip and lowercase each
entry, and keep the employees that have ALL listed skills
(`all(skill in [s.lower() for s in emp["skills"]] for skill in skill_list)`). -/
def skillFilterAll (skills : String) (emps : List Employee) : List Employee :=
  let skill_list := (pySplitComma skills).map fun s => pyLower (pyStrip s)
  emps.filter fun emp =>
    skill_list.all fun skill => (emp.skills.map pyLower).contains skill

/-- The skills filter of `search_employees` in `app/main.py` (lines 46-52):
the parameter is a list of which only `skills[0]` is split (an empty list is
falsy and skips the filter); keep the employees that have ANY listed skill
(`any(...)`). -/
def skillFilterAny (skills : List String) (emps : List Employee) : List Employee :=
  match skills with
  | [] => emps
  | first :: _ =>
      let skill_list := (pySplitComma first).map fun s => pyLower (pyStrip s)
      emps.filter fun emp =>
        skill_list.any fun skill => (emp.skills.map pyLower).contains skill

/-- The name filter shared by both endpoints: skipped for `None` and for the
falsy empty string, otherwise `name.lower() in emp["name"].lower()`. -/
def filterByName (name : Option String) (emps : List Employee) : List Employee :=
  match name with
  | none => emps
  | some n =>
      if n = "" then emps
      else emps.filter fun emp => pyContains (pyLower n) (pyLower emp.name)

/-- The experience filter of both endpoints: applied whenever the parameter
`is not None` (zero still filters), keeping
`emp["experience_years"] >= min_experience`. -/
def filterByExperience (min_experience : Option Int) (emps : List Employee) :
    List Employee :=
  match min_experience with
  | none => emps
  | some m => emps.filter fun emp => m ≤ emp.experience_years

/-- The availability filter of both endpoints: skipped for `None` and the
empty string, otherwise `emp["availability"].lower() == availability.lower()`. -/
def filterByAvailability (availability : Option String) (emps : List Employee) :
    List Employee :=
  match availability with
  | none => emps
  | some a =>
      if a = "" then emps
      else emps.filter fun emp => pyLower emp.availability = pyLower a

/-- The query parameters of `search_employees` in `app/api/main.py`:
`skills` is a single comma-separated string. -/
structure ApiQuery where
  name : Option String
  skills : Option String
  min_experience : Option Int
  availability : Option String

/-- The query parameters of `search_employees` in `app/main.py` (flat
layout): `skills` is a list of query-parameter values. -/
structure FlatQuery where
  name : Option String
  skills : Option (List String)
  min_experience : Option Int
  availability : Option String

/-- The filter pipeline of `search_employees` in `app/api/main.py` (lines
94-126): name, then skills (ALL policy, skipped for `None`/empty string),
then experience, then availability, each a list comprehension over the
previous result, starting from `employees.copy()`. -/
def api_filtered (q : ApiQuery) (employees : List Employee) : List Employee :=
  filterByAvailability q.availability
    (filterByExperience q.min_experience
      ((match q.skills with
        | none => id
        | some s => if s = "" then id else skillFilterAll s)
        (filterByName q.name employees)))

/-- `search_employees` from `app/api/main.py`: returns
`SearchResponse(total=len(filtered_employees), employees=filtered_employees)`. -/
def api_search_employees (q : ApiQuery) (employees : List Employee) :
    ℕ × List Employee :=
  ((api_filtered q employees).length, api_filtered q employees)

/-- The filter pipeline of `search_employees` in `app/main.py` (lines 34-64):
same stages, with the ANY-policy skills filter over `skills[0]`.  (The stored
corpus is a list of JSON documents; decoding them recovers the records
unchanged, so the pipeline is modelled directly on the records.) -/
def flat_filtered (q : FlatQuery) (employees : List Employee) : List Employee :=
  filterByAvailability q.availability
    (filterByExperience q.min_experience
      ((match q.skills with
        | none => id
        | some l => skillFilterAny l)
        (filterByName q.name employees)))

/-- `search_employees` from `app/main.py`: returns
`SearchResponse(total=len(employee_models), employees=employee_models)`. -/
def flat_search_employees (q : FlatQuery) (employees : List Employee) :
    ℕ × List Employee :=
  ((flat_filtered q employees).length, flat_filtered q employees)

/-- A record holding the `Go` skill but not `SQL`: the two filter revisions
disagree on it for the query `"Go,SQL"`. -/
def goOnlyEmployee : Employee where
  id := 3
  name := "Cy"
  skills := ["Go"]
  experience_years := 2
  projects := []
  availability := "busy"

/-- Commas are absent from a single-skill query, in which case both filter
revisions consult the same singleton skill list. -/
theorem splitCommaChars_no_comma :
    ∀ (l acc : List Char), (∀ c ∈ l, c ≠ ',') →
      splitCommaChars l acc = [acc.reverse ++ l] := by
  intro l
  induction l with
  | nil => intro acc _; simp [splitCommaChars]
  | cons c cs ih =>
    intro acc h
    have hc : c ≠ ',' := h c (by simp)
    have := ih (c :: acc) fun d hd => h d (by simp [hd])
    simp [splitCommaChars, hc, this]

/-- C6: the ALL-skills filter of `app/api/main.py` and the ANY-skills filter
of `app/main.py` are not equivalent — on the corpus `[goOnlyEmployee]` the
two-skill query `"Go,SQL"` returns nothing under ALL and the employee under
ANY — while a comma-free single-skill query makes them agree on every
corpus. -/
theorem C6_all_vs_any_filters (q : String) (emps : List Employee)
    (hq : ∀ c ∈ q.data, c ≠ ',') :
    skillFilterAll "Go,SQL" [goOnlyEmployee] = [] ∧
    skillFilterAny ["Go,SQL"] [goOnlyEmployee] = [goOnlyEmployee] ∧
    skillFilterAll "Go,SQL" [goOnlyEmployee] ≠ skillFilterAny ["Go,SQL"] [goOnlyEmployee] ∧
    skillFilterAll q emps = skillFilterAny [q] emps := by
  refine ⟨by decide, by decide, by decide, ?_⟩
  simp [skillFilterAll, skillFilterAny, pySplitComma, splitCommaChars_no_comma q.data [] hq]

/-- Witness for C6 at the single-skill query `"go"` on the disagreement
corpus. -/
theorem C6_all_vs_any_filters_witness :
    skillFilterAll "Go,SQL" [goOnlyEmployee] = [] ∧
    skillFilterAny ["Go,SQL"] [goOnlyEmployee] = [goOnlyEmployee] ∧
    skillFilterAll "Go,SQL" [goOnlyEmployee] ≠ skillFilterAny ["Go,SQL"] [goOnlyEmployee] ∧
    skillFilterAll "go" [goOnlyEmployee] = skillFilterAny ["go"] [goOnlyEmployee] :=
  C6_all_vs_any_filters "go" [goOnlyEmployee] (by decide)

/-- C9: the flat-layout search endpoint consults only `skills[0]`: every
element after the first leaves the result unchanged, and the response equals
the one computed from the first element alone. -/
theorem C9_flat_skills_head_only (nm : Option String) (first : String)
    (rest rest2 : List String) (min_exp : Option Int) (avail : Option String)
    (corpus : List Employee) :
    flat_search_employees ⟨nm, some (first :: rest), min_exp, avail⟩ corpus =
      flat_search_employees ⟨nm, some (first :: rest2), min_exp, avail⟩ corpus ∧
    flat_search_employees ⟨nm, some (first :: rest), min_exp, avail⟩ corpus =
      flat_search_employees ⟨nm, some [first], min_exp, avail⟩ corpus :=
  ⟨rfl, rfl⟩

theorem filterByName_sublist (name : Option String) (emps : List Employee) :
    (filterByName name emps).Sublist emps := by
  cases name with
  | none => exact List.Sublist.refl _
  | some n =>
    by_cases h : n = ""
    · simp only [filterByName, h, if_true]
      exact List.Sublist.refl _
    · simp only [filterByName, h, if_false]
      exact List.filter_sublist _

theorem skillFilterAll_sublist (skills : String) (emps : List Employee) :
    (skillFilterAll skills emps).Sublist emps :=
  List.filter_sublist _

theorem skillFilterAny_sublist (skills : List String) (emps : List Employee) :
    (skillFilterAny skills emps).Sublist emps := by
  unfold skillFilterAny
  cases skills with
  | nil => exact List.Sublist.refl _
  | cons first rest => exact List.filter_sublist _

theorem filterByExperience_sublist (min_experience : Option Int)
    (emps : List Employee) : (filterByExperience min_experience emps).Sublist emps := by
  unfold filterByExperience
  cases min_experience with
  | none => exact List.Sublist.refl _
  | some m => exact List.filter_sublist _

theorem filterByAvailability_sublist (availability : Option String)
    (emps : List Employee) : (filterByAvailability availability emps).Sublist emps := by
  cases availability with
  | none => exact List.Sublist.refl _
  | some a =>
    by_cases h : a = ""
    · simp only [filterByAvailability, h, if_true]
      exact List.Sublist.refl _
    · simp only [filterByAvailability, h, if_false]
      exact List.filter_sublist _

theorem api_filtered_sublist (q : ApiQuery) (corpus : List Employee) :
    (api_filtered q corpus).Sublist corpus := by
  have hskills : ∀ emps : List Employee,
      ((match q.skills with
        | none => id
        | some s => if s = "" then id else skillFilterAll s) emps).Sublist emps := by
    intro emps
    cases q.skills with
    | none => exact List.Sublist.refl _
    | some s =>
      by_cases h : s = ""
      · simp [h]
      · simp only [h, if_false]
        exact skillFilterAll_sublist s emps
  exact ((filterByAvailability_sublist _ _).trans
    ((filterByExperience_sublist _ _).trans
      ((hskills _).trans (filterByName_sublist _ _))))

/-- C10: for every combination of name, skills, experience and availability
parameters, the structured search endpoint returns an employee list that is a
subsequence of the corpus in its original order, and reports `total` equal to
that list's length.  (The pipeline starts from `employees.copy()` and builds
new lists; the stored corpus itself is never written.) -/
theorem C10_api_search_invariants (q : ApiQuery) (corpus : List Employee) :
    (api_search_employees q corpus).2.Sublist corpus ∧
    (api_search_employees q corpus).1 = (api_search_employees q corpus).2.length :=
  ⟨api_filtered_sublist q corpus, rfl⟩

/-! ## The `/chat` handlers -/

/-- A Python exception as the `/chat` handlers see it: the `HTTPException`
raised for an empty query, or any other exception (e.g. from the QA chain). -/
inductive PyExc where
  | httpExc (status : Nat) (detail : String)
  | otherExc (msg : String)
deriving DecidableEq, Repr

/-- Python `str(e)`: Starlette's `HTTPException.__str__` renders
`f"{self.status_code}: {self.detail}"`; other exceptions render their
message. -/
def PyExc.toText : PyExc → String
  | .httpExc status detail => toString status ++ ": " ++ detail
  | .otherExc msg => msg

/-- The try-block shared by both `/chat` handlers (`app/api/main.py` lines
59-64, `app/main.py` lines 17-22): an empty (falsy) query raises
`HTTPException(400, "Query is empty")`, otherwise the QA chain runs and may
itself raise. -/
def chatBody (chain : String → Except String String) (query : String) :
    Except PyExc String :=
  if query = "" then .error (.httpExc 400 "Query is empty")
  else
    match chain query with
    | .ok r => .ok r
    | .error m => .error (.otherExc m)

/-- The `/chat` handler of `app/api/main.py`: `except Exception` catches
every exception from the try-block — including the `HTTPException(400)`
raised inside it — and raises `HTTPException(500, str(e))`. -/
def api_chat (chain : String → Except String String) (query : String) :
    Except (Nat × String) String :=
  match chatBody chain query with
  | .ok r => .ok r
  | .error e => .error (500, e.toText)

/-- The `/chat` handler of `app/main.py`: identical shape, with detail
`f"Internal server error: {str(e)}"`. -/
def flat_chat (chain : String → Except String String) (query : String) :
    Except (Nat × String) String :=
  match chatBody chain query with
  | .ok r => .ok r
  | .error e => .error (500, "Internal server error: " ++ e.toText)

/-- C8: for an empty query both `/chat` handlers answer with status 500, not
the 400 they construct: the handler's own `except Exception` catches the
`HTTPException(400)` and re-raises a 500 whose detail embeds the 400's
message. -/
theorem C8_chat_empty_query_is_500 (chain : String → Except String String) :
    api_chat chain "" = .error (500, "400: Query is empty") ∧
    flat_chat chain "" = .error (500, "Internal server error: 400: Query is empty") ∧
    pyContains "Query is empty" "400: Query is empty" = true ∧
    pyContains "Query is empty" "Internal server error: 400: Query is empty" = true :=
  ⟨rfl, rfl, by decide, by decide⟩

/-! ## What each unit's text contains -/

/-- `needle` occurs as a contiguous substring of `hay`. -/
def occursIn (needle hay : String) : Prop :=
  needle.data <:+: hay.data

instance (needle hay : String) : Decidable (occursIn needle hay) :=
  inferInstanceAs (Decidable (needle.data <:+: hay.data))

theorem occursIn_refl (s : String) : occursIn s s :=
  ⟨[], [], by simp⟩

theorem occursIn_append_left (n a b : String) (h : occursIn n a) :
    occursIn n (a ++ b) := by
  obtain ⟨s, t, hst⟩ := h
  exact ⟨s, t ++ b.data, by rw [String.data_append, ← hst]; simp⟩

theorem occursIn_append_right (n a b : String) (h : occursIn n b) :
    occursIn n (a ++ b) := by
  obtain ⟨s, t, hst⟩ := h
  exact ⟨a.data ++ s, t, by rw [String.data_append, ← hst]; simp⟩

/-- A piece of an f-string occurs in the rendered string. -/
theorem occursIn_strConcat (n : String) :
    ∀ parts : List String, n ∈ parts → occursIn n (strConcat parts) := by
  intro parts
  induction parts with
  | nil => simp
  | cons p ps ih =>
    intro h
    rcases List.mem_cons.mp h with h | h
    · subst h
      exact occursIn_append_left _ _ _ (occursIn_refl _)
    · exact occursIn_append_right _ _ _ (ih h)

/-- C7 amended: the profile text renders every field of the record — name,
experience, availability, the full skills list and the full projects list —
but the skill-specific text renders only the one skill besides name,
experience, availability and the full projects list, and the
project-specific text renders only the one project besides name, experience,
availability and the full skills list.  (Lists occur as their `", "`-joined
rendering.)  Criteria about a record's other skills (resp. other projects)
are therefore not answerable from a skill (resp. project) unit alone. -/
theorem C7_amended_unit_text_fields (emp : Employee) (skill project : String) :
    (occursIn emp.name (format_employee emp) ∧
     occursIn (toString emp.experience_years) (format_employee emp) ∧
     occursIn emp.availability (format_employee emp) ∧
     occursIn (String.intercalate ", " emp.skills) (format_employee emp) ∧
     occursIn (String.intercalate ", " emp.projects) (format_employee emp)) ∧
    (occursIn emp.name (create_skill_document emp skill).page_content ∧
     occursIn skill (create_skill_document emp skill).page_content ∧
     occursIn (toString emp.experience_years) (create_skill_document emp skill).page_content ∧
     occursIn (String.intercalate ", " emp.projects) (create_skill_document emp skill).page_content ∧
     occursIn emp.availability (create_skill_document emp skill).page_content) ∧
    (occursIn emp.name (create_project_document emp project).page_content ∧
     occursIn project (create_project_document emp project).page_content ∧
     occursIn (toString emp.experience_years) (create_project_document emp project).page_content ∧
     occursIn (String.intercalate ", " emp.skills) (create_project_document emp project).page_content ∧
     occursIn emp.availability (create_project_document emp project).page_content) := by
  refine ⟨⟨?_, ?_, ?_, ?_, ?_⟩, ⟨?_, ?_, ?_, ?_, ?_⟩, ⟨?_, ?_, ?_, ?_, ?_⟩⟩ <;>
    exact occursIn_strConcat _ _ (by simp)

/-- A record with a second project, for the project-unit counterexample. -/
def twoProjectEmployee : Employee where
  id := 4
  name := "Di"
  skills := ["Go"]
  experience_years := 5
  projects := ["Billing", "Ledger"]
  availability := "available"

set_option maxRecDepth 8192 in
/-- C7 as stated is false: the skill-specific unit for `Go` of the record
`ana` (skills `["Go", "SQL"]`) nowhere mentions `SQL`, and the
project-specific unit for `Billing` of a two-project record nowhere mentions
the other project `Ledger`, so a criterion about those fields cannot be
answered from that single unit's text. -/
theorem C7_counterexample_unit_text_incomplete :
    ("SQL" ∈ ana.skills ∧
      ¬ occursIn "SQL" (create_skill_document ana "Go").page_content) ∧
    ("Ledger" ∈ twoProjectEmployee.projects ∧
      ¬ occursIn "Ledger" (create_project_document twoProjectEmployee "Billing").page_content) := by
  refine ⟨⟨by decide, by decide⟩, ⟨by decide, by decide⟩⟩
